import Mathlib

/-!
# Verification of the Block_Push_Control controllers

Shallow embedding of the two trial controllers of the repository:

* `src/push_pid.py`  — proportional pusher (phases approach → lower → push,
  with stall / lateral re-approach guards, 180 s timeout);
* `src/push_mpc.py`  — MPC pusher (phases approach → lower → seek → mpc,
  plus seek_lift re-engage, 30 s timeout).

Modelling conventions:

* All numeric quantities are embedded as exact rationals `ℚ`; the Python
  floats of the source are tolerance-scale constants for which rounding of
  the literal is irrelevant to every property proved here.
* `np.linalg.norm` is an external library call returning a nonnegative real;
  the development is parametric in a `NormModel` supplying the 2- and
  3-vector norms.  Theorems that need facts about the norm (nonnegativity,
  domination of each coordinate) take them as explicit hypotheses — all are
  true of the Euclidean norm.  Concrete evaluations use `taxicab`, which
  coincides with the Euclidean norm on axis-aligned vectors; concrete inputs
  are chosen axis-aligned so that every concrete run is also a run of the
  Euclidean-norm instantiation.
* The physics simulation, the renderer and the OSQP solver are external
  collaborators: each tick's observation (cube position, end-effector
  position, contact-force magnitudes before and after the `env.step` call,
  elapsed wall time, and — for the mpc phase — the solver's first-step
  velocity command) is an oracle input `PidObs` / `MpcObs` to the tick
  function.  Rendering is a side effect with no feedback and is omitted.
* One iteration of each script's `while True:` loop is embedded as a total
  function from (persistent state, tick observation) to an outcome: either
  `halt` (the loop `break`s, the trial ends with the recorded state) or
  `cont` (the loop continues; in the PID variant a tick may `continue`
  without issuing an action, hence the `Option` action).
-/

namespace BlockPush

abbrev Vec2 := ℚ × ℚ
abbrev Vec3 := ℚ × ℚ × ℚ

/-- Componentwise subtraction of planar vectors. -/
def sub2 (a b : Vec2) : Vec2 := (a.1 - b.1, a.2 - b.2)

/-- Componentwise subtraction of spatial vectors. -/
def sub3 (a b : Vec3) : Vec3 := (a.1 - b.1, a.2.1 - b.2.1, a.2.2 - b.2.2)

/-- The two `np.linalg.norm` instances used by the scripts, supplied as a
parameter of the embedding (the Euclidean norm is irrational on most
rational inputs). -/
structure NormModel where
  n2 : Vec2 → ℚ
  n3 : Vec3 → ℚ

/-- 1-norm instance: agrees with the Euclidean norm on axis-aligned vectors,
which is what all concrete evaluations below use. -/
def taxicab : NormModel where
  n2 := fun v => |v.1| + |v.2|
  n3 := fun v => |v.1| + |v.2.1| + |v.2.2|

/-- `np.clip(x, lo, hi)`. -/
def clip (x lo hi : ℚ) : ℚ := min (max x lo) hi

/-- `np.clip` applied componentwise to a 3-vector. -/
def clip3 (v : Vec3) (lo hi : ℚ) : Vec3 :=
  (clip v.1 lo hi, clip v.2.1 lo hi, clip v.2.2 lo hi)

/- ### Constants of `push_pid.py` -/

def MAX_TIME : ℚ := 180
def APPROACH_HEIGHT : ℚ := 15/100
def BASE_OFFSET : ℚ := 5/100
def PUSH_VEL_MAX : ℚ := 15/100
def PUSH_VEL_MIN : ℚ := 5/100
def FADE_DIST : ℚ := 1/1000
def SPEED_XY : ℚ := 1/10
def SPEED_Z : ℚ := 1/10
def TOL_FINE : ℚ := 15/1000
def STALL_THRESH : ℚ := 2/1000
def REAPP_THRESH : ℚ := 15/100
def DAMP : ℚ := 15/100

/-- `int(STALL_TIME * env.control_freq)` with `STALL_TIME = 1.0` and
`control_freq = 60`: capacity of the stall ring buffer. -/
def STALL_CAP : ℕ := 60

/-- The `1e-9` regulariser added to norms before division. -/
def EPS : ℚ := 1/1000000000

/- ### Constants of `push_mpc.py` -/

def APPROACH_H : ℚ := 15/100
def LIFT_H : ℚ := 6/100
def BASE_OFF : ℚ := 5/100
def PALM_Z_OFF : ℚ := -2/1000
def SEEK_VEL : ℚ := 3/100
def TIMEOUT_SEC : ℚ := 30
def DT : ℚ := 1/60

/-- The `1e-4` contact-force threshold of the MPC variant. -/
def CONTACT_EPS : ℚ := 1/10000

/- ### Shared data -/

/-- Terminal statuses actually produced by the two scripts. -/
inductive Status
  | success
  | timeout
deriving DecidableEq

/-- Per-trial environment constants derived from the initial observation:
`GOAL_XY = cube_xyz[:2] + [0.15, -0.10]` and `TABLE_Z = cube_xyz[2]`. -/
structure TaskEnv where
  goalXY : Vec2
  tableZ : ℚ
deriving DecidableEq

/-- `GOAL_XY` as computed by both scripts from the initial cube position. -/
def goalFrom (cube0 : Vec2) : Vec2 := (cube0.1 + 15/100, cube0.2 - 1/10)

/-- `TaskEnv` obtained from the initial observation's `object-state`. -/
def envFrom (cube0 : Vec3) : TaskEnv :=
  { goalXY := goalFrom (cube0.1, cube0.2.1), tableZ := cube0.2.2 }

/-- `WRIST_Z = TABLE_Z + 0.001` (press depth, PID variant). -/
def WRIST_Z_pid (e : TaskEnv) : ℚ := e.tableZ + 1/1000

/-- `WRIST_Z = TABLE_Z + PALM_Z_OFF` (MPC variant). -/
def WRIST_Z_mpc (e : TaskEnv) : ℚ := e.tableZ + PALM_Z_OFF

/-- Python's `int()` on a rational: truncation toward zero. -/
def pyInt (q : ℚ) : ℤ := if 0 ≤ q then ⌊q⌋ else ⌈q⌉

/-- One iteration bound for the per-second sampling `while` loop of the PID
variant.  The loop `while elapsed >= next_sample: append; next_sample += 1`
runs at most `(⌈elapsed - next⌉ + 1).toNat` times, so running the
fuel-indexed body with exactly that much fuel computes the loop; the fuel
never cuts the loop short (`sampleIter_exit` below). -/
def sampleIter (elapsed err : ℚ) : ℕ → ℚ → List (ℤ × ℚ) → List (ℤ × ℚ) × ℚ
  | 0, next, samples => (samples, next)
  | n + 1, next, samples =>
    if next ≤ elapsed then
      sampleIter elapsed err n (next + 1) (samples ++ [(pyInt next, err)])
    else (samples, next)

/-- The PID variant's sampling step (lines 65–67 of `push_pid.py`):
`while elapsed >= next_sample: samples.append((int(next_sample), err));
next_sample += 1.0`.  Returns the updated sample list and `next_sample`. -/
def sampleLoop (elapsed err next : ℚ) (samples : List (ℤ × ℚ)) :
    List (ℤ × ℚ) × ℚ :=
  sampleIter elapsed err ((⌈elapsed - next⌉ + 1).toNat) next samples

/-- The MPC variant's sampling step (lines 100–103 of `push_mpc.py`):
a single `if elapsed >= next_sample` — at most one sample per tick. -/
def sampleStep (elapsed err next : ℚ) (samples : List (ℤ × ℚ)) :
    List (ℤ × ℚ) × ℚ :=
  if next ≤ elapsed then (samples ++ [(pyInt next, err)], next + 1)
  else (samples, next)

/-- `collections.deque(maxlen := m)` append: drop from the left when the
capacity is exceeded. -/
def dequeAppend (m : ℕ) (buf : List ℚ) (x : ℚ) : List ℚ :=
  let b := buf ++ [x]
  if m < b.length then b.drop (b.length - m) else b

/-- The `t_finish` update both scripts perform every non-halting tick:
`if t_finish is None and err <= 0.01: t_finish = elapsed`. -/
def updateFinish (tf : Option ℚ) (elapsed err : ℚ) : Option ℚ :=
  match tf with
  | none => if err ≤ 1/100 then some elapsed else none
  | some t => some t

/-- `t_finish` after a whole trace of `(elapsed, err)` ticks. -/
def finishFold (ticks : List (ℚ × ℚ)) : Option ℚ :=
  ticks.foldl (fun tf te => updateFinish tf te.1 te.2) none

/-- The finish-time CSV field `f"{t_finish:.2f}" if t_finish else "NaN"`
shared verbatim by both scripts.  `none` encodes the literal string `NaN`;
`some t` encodes the 2-decimal rendering of `t`.  Python truthiness makes
both `None` and exactly `0.0` fall to the `NaN` branch. -/
def csvFinishField (tf : Option ℚ) : Option ℚ :=
  match tf with
  | none => none
  | some t => if t = 0 then none else some t

/-- The per-trial CSV line, field order abstracted (the two scripts swap
`status` and the finish field; both orders carry the same four fields). -/
structure TrialLine where
  total : ℚ
  statusField : Status
  finishField : Option ℚ
  sampleFields : List (ℤ × ℚ)
deriving DecidableEq

/-- CSV line of `push_pid.py` (lines 117–121). -/
def pidLine (total : ℚ) (tf : Option ℚ) (status : Status)
    (samples : List (ℤ × ℚ)) : TrialLine :=
  { total := total, statusField := status, finishField := csvFinishField tf,
    sampleFields := samples }

/-- CSV line of `push_mpc.py` (lines 168–173). -/
def mpcLine (total : ℚ) (tf : Option ℚ) (status : Status)
    (samples : List (ℤ × ℚ)) : TrialLine :=
  { total := total, statusField := status, finishField := csvFinishField tf,
    sampleFields := samples }

/- ### PID variant (`push_pid.py`) -/

inductive PidPhase
  | approach
  | lower
  | push
deriving DecidableEq

/-- Persistent per-trial state of the PID script. -/
structure PidState where
  phase : PidPhase
  stallBuf : List ℚ
  nextSample : ℚ
  samples : List (ℤ × ℚ)
  tFinish : Option ℚ
  status : Status
deriving DecidableEq

/-- Initial state: `phase="approach"`, empty stall buffer, `next_sample=1.0`,
no samples, `t_finish=None`, `status="timeout"` (the default until
success). -/
def pidInit : PidState :=
  { phase := .approach, stallBuf := [], nextSample := 1, samples := [],
    tFinish := none, status := .timeout }

/-- Oracle inputs to one PID tick: the observation fields read this tick and
the wall-clock `elapsed = time.time() - t0`. -/
structure PidObs where
  cubeXY : Vec2
  eePos : Vec3
  elapsed : ℚ
deriving DecidableEq

/-- Outcome of one PID loop iteration: `halt` = the loop `break`s; `cont` =
next iteration, with the action issued to `env.step` this tick (`none` when
the push branch `continue`s without stepping). -/
inductive PidOutcome
  | halt (s : PidState)
  | cont (s : PidState) (act : Option Vec3)
deriving DecidableEq

def PidOutcome.contPhase : PidOutcome → Option PidPhase
  | .cont s _ => some s.phase
  | .halt _ => none

def PidOutcome.contStallBuf : PidOutcome → Option (List ℚ)
  | .cont s _ => some s.stallBuf
  | .halt _ => none

def PidOutcome.contSamples : PidOutcome → Option (List (ℤ × ℚ))
  | .cont s _ => some s.samples
  | .halt _ => none

def PidOutcome.haltStatus : PidOutcome → Option Status
  | .halt s => some s.status
  | .cont _ _ => none

def PidOutcome.contAct : PidOutcome → Option (Option Vec3)
  | .cont _ a => some a
  | .halt _ => none

/-- The approach-phase standoff target of the PID variant:
`tgt_xy = cube_xy - dir_u*BASE_OFFSET`, `tgt_z = TABLE_Z + APPROACH_HEIGHT`
with `dir_u = err_vec/(err + 1e-9)`. -/
def pidApproachTgt (N : NormModel) (e : TaskEnv) (cubeXY : Vec2) : Vec3 :=
  let errVec := sub2 e.goalXY cubeXY
  let err := N.n2 errVec
  (cubeXY.1 - errVec.1 / (err + EPS) * BASE_OFFSET,
   cubeXY.2 - errVec.2 / (err + EPS) * BASE_OFFSET,
   e.tableZ + APPROACH_HEIGHT)

/-- One iteration of the `while True:` loop of `push_pid.py` (lines 53–109).
Order of operations is the source's: timeout guard first, then error
computation and stall-buffer append, per-second sampling, `t_finish`
recording, the success check, and finally the phase machine.  The
approach/lower branches fall through to the shared clipped-step action; the
push branch either `continue`s back to approach (lateral or stall guard,
issuing no action) or issues the faded push action. -/
def pidTick (N : NormModel) (e : TaskEnv) (st : PidState) (o : PidObs) :
    PidOutcome :=
  if MAX_TIME < o.elapsed then .halt st
  else
    let cubeXY := o.cubeXY
    let ee := o.eePos
    let errVec := sub2 e.goalXY cubeXY
    let err := N.n2 errVec
    let buf := dequeAppend STALL_CAP st.stallBuf err
    let sl := sampleLoop o.elapsed err st.nextSample st.samples
    let tf := updateFinish st.tFinish o.elapsed err
    if err < TOL_FINE then
      .halt { st with stallBuf := buf, samples := sl.1, nextSample := sl.2,
                      tFinish := tf, status := .success }
    else
      match st.phase with
      | .approach =>
        let tgt := pidApproachTgt N e cubeXY
        let phase1 := if N.n3 (sub3 ee tgt) < 5/1000 then PidPhase.lower
                      else .approach
        let dpos := clip3 (sub3 tgt ee) (-SPEED_XY) SPEED_XY
        .cont { st with phase := phase1, stallBuf := buf, samples := sl.1,
                        nextSample := sl.2, tFinish := tf } (some dpos)
      | .lower =>
        let tgt : Vec3 := (ee.1, ee.2.1, WRIST_Z_pid e + 1/1000)
        let trans := |ee.2.2 - tgt.2.2| < 8/10000
        let phase1 := if trans then PidPhase.push else .lower
        let buf1 := if trans then [] else buf
        let dpos := clip3 (sub3 tgt ee) (-SPEED_XY) SPEED_XY
        .cont { st with phase := phase1, stallBuf := buf1, samples := sl.1,
                        nextSample := sl.2, tFinish := tf } (some dpos)
      | .push =>
        let dirU : Vec2 := (errVec.1 / (err + EPS), errVec.2 / (err + EPS))
        let lateral := N.n2 (cubeXY.1 - (ee.1 + dirU.1 * BASE_OFFSET),
                             cubeXY.2 - (ee.2.1 + dirU.2 * BASE_OFFSET))
        if REAPP_THRESH < lateral then
          .cont { st with phase := .approach, stallBuf := buf,
                          samples := sl.1, nextSample := sl.2,
                          tFinish := tf } none
        else if buf.length = STALL_CAP ∧ buf.headI - err < STALL_THRESH then
          .cont { st with phase := .approach, stallBuf := buf,
                          samples := sl.1, nextSample := sl.2,
                          tFinish := tf } none
        else
          let fade := clip ((err / FADE_DIST) ^ 2 + DAMP) 0 1
          let fwd := max (PUSH_VEL_MAX * fade)
                         (if FADE_DIST < err then PUSH_VEL_MIN else 0)
          let dxy : Vec2 := (dirU.1 * fwd - (cubeXY.1 - ee.1) / 2,
                             dirU.2 * fwd - (cubeXY.2 - ee.2.1) / 2)
          let dz := clip (WRIST_Z_pid e - ee.2.2) (-SPEED_Z) SPEED_Z
          let dpos := clip3 (dxy.1, dxy.2, dz) (-SPEED_XY) SPEED_XY
          .cont { st with phase := .push, stallBuf := buf, samples := sl.1,
                          nextSample := sl.2, tFinish := tf } (some dpos)

/- ### MPC variant (`push_mpc.py`) -/

inductive MpcPhase
  | approach
  | lower
  | seek_lift
  | seek
  | mpc
deriving DecidableEq

/-- Persistent per-trial state of the MPC script. -/
structure MpcState where
  state : MpcPhase
  prevXY : Vec2
  nextSample : ℚ
  samples : List (ℤ × ℚ)
  tFinish : Option ℚ
  status : Status
deriving DecidableEq

/-- Initial state: `state="approach"`, `prev_xy = cube_xyz[:2]`,
`next_sample=1.0`, no samples, `t_finish=None`, `status="success"` (the
MPC script's initial value). -/
def mpcInit (cube0 : Vec2) : MpcState :=
  { state := .approach, prevXY := cube0, nextSample := 1, samples := [],
    tFinish := none, status := .success }

/-- Oracle inputs to one MPC tick.  `cf` is the top-of-tick contact reading
`cf = contact(obs)` (computed by the source and never read); `cfAfter` is
the contact reading `contact(obs)` taken after the branch's `env.step`
call (used by the seek and mpc branches); `vCmd` is the solver's
first-step velocity `v[:,1].value`. -/
structure MpcObs where
  cubeXY : Vec2
  ee : Vec3
  cf : ℚ
  cfAfter : ℚ
  vCmd : Vec2
  elapsed : ℚ
deriving DecidableEq

/-- Outcome of one MPC loop iteration; every non-halting MPC tick issues
exactly one action. -/
inductive MpcOutcome
  | halt (s : MpcState)
  | cont (s : MpcState) (act : Vec3)
deriving DecidableEq

def MpcOutcome.contPhase : MpcOutcome → Option MpcPhase
  | .cont s _ => some s.state
  | .halt _ => none

def MpcOutcome.contSamples : MpcOutcome → Option (List (ℤ × ℚ))
  | .cont s _ => some s.samples
  | .halt _ => none

def MpcOutcome.haltStatus : MpcOutcome → Option Status
  | .halt s => some s.status
  | .cont _ _ => none

/-- `back_pose(cube_xy, height)` of `push_mpc.py`: standoff pose behind the
cube along the cube→goal direction at `TABLE_Z + height`. -/
def back_pose (N : NormModel) (e : TaskEnv) (cubeXY : Vec2) (height : ℚ) :
    Vec3 :=
  let g := sub2 e.goalXY cubeXY
  let d := N.n2 g + EPS
  (cubeXY.1 - g.1 / d * BASE_OFF, cubeXY.2 - g.2 / d * BASE_OFF,
   e.tableZ + height)

/-- One iteration of the `while True:` loop of `push_mpc.py` (lines 83–161).
Order of operations is the source's: error computation and success check
first, then the timeout guard, single-shot sampling, `t_finish` recording,
and the state machine.  The mpc branch retains the source's post-step
re-test `if err < TOL_FINE: break` on the very `err` bound at the top of
the loop. -/
def mpcTick (N : NormModel) (e : TaskEnv) (st : MpcState) (o : MpcObs) :
    MpcOutcome :=
  let cubeXY := o.cubeXY
  let err := N.n2 (sub2 e.goalXY cubeXY)
  if err < TOL_FINE then .halt { st with status := .success }
  else
    let ee := o.ee
    if TIMEOUT_SEC < o.elapsed then .halt { st with status := .timeout }
    else
      let sl := sampleStep o.elapsed err st.nextSample st.samples
      let tf := updateFinish st.tFinish o.elapsed err
      let st1 : MpcState :=
        { st with samples := sl.1, nextSample := sl.2, tFinish := tf }
      match st.state with
      | .approach =>
        let tgt := back_pose N e cubeXY APPROACH_H
        let dpos := clip3 (sub3 tgt ee) (-SPEED_XY) SPEED_XY
        let s1 := if N.n3 (sub3 tgt ee) < 4/1000 then MpcPhase.lower
                  else .approach
        .cont { st1 with state := s1 } dpos
      | .lower =>
        let tgt : Vec3 := (ee.1, ee.2.1, WRIST_Z_mpc e)
        let dpos := clip3 (sub3 tgt ee) (-SPEED_XY) SPEED_Z
        let s1 := if |ee.2.2 - tgt.2.2| < 2/1000 then MpcPhase.seek
                  else .lower
        .cont { st1 with state := s1 } dpos
      | .seek_lift =>
        let tgt := back_pose N e cubeXY LIFT_H
        let dpos := clip3 (sub3 tgt ee) (-SPEED_XY) SPEED_Z
        let s1 := if N.n3 (sub3 tgt ee) < 4/1000 then MpcPhase.seek
                  else .seek_lift
        .cont { st1 with state := s1 } dpos
      | .seek =>
        let dirU : Vec2 := ((e.goalXY.1 - cubeXY.1) / (err + EPS),
                            (e.goalXY.2 - cubeXY.2) / (err + EPS))
        let act : Vec3 := (dirU.1 * SEEK_VEL, dirU.2 * SEEK_VEL,
                           clip (WRIST_Z_mpc e - ee.2.2) (-SPEED_Z) SPEED_Z)
        if CONTACT_EPS < o.cfAfter then
          .cont { st1 with state := .mpc, prevXY := cubeXY } act
        else
          .cont { st1 with state := .seek } act
      | .mpc =>
        let act : Vec3 := (clip (o.vCmd.1 * DT) (-SPEED_XY) SPEED_XY,
                           clip (o.vCmd.2 * DT) (-SPEED_XY) SPEED_XY,
                           clip (WRIST_Z_mpc e - ee.2.2) (-SPEED_Z) SPEED_Z)
        let st2 : MpcState := { st1 with prevXY := cubeXY }
        if err < TOL_FINE then .halt st2
        else if o.cfAfter < CONTACT_EPS then
          .cont { st2 with state := .seek_lift } act
        else
          .cont { st2 with state := .mpc } act

/- ## General lemmas about the embedded primitives -/

theorem abs_clip_le (x c : ℚ) (hc : 0 ≤ c) : |clip x (-c) c| ≤ c := by
  unfold clip
  rw [abs_le]
  exact ⟨le_min (le_max_right x (-c)) (by linarith), min_le_right _ _⟩

theorem sampleIter_stop (elapsed err next : ℚ) (samples : List (ℤ × ℚ))
    (h : elapsed < next) (n : ℕ) :
    sampleIter elapsed err n next samples = (samples, next) := by
  cases n with
  | zero => rfl
  | succ k =>
    unfold sampleIter
    rw [if_neg (by linarith)]

theorem sampleLoop_of_lt (elapsed err next : ℚ) (samples : List (ℤ × ℚ))
    (h : elapsed < next) : sampleLoop elapsed err next samples = (samples, next) :=
  sampleIter_stop elapsed err next samples h _

/-- Each run of the fuel-indexed sampling body with at least
`(⌈elapsed - next⌉ + 1).toNat` fuel appends exactly one sample per crossed
whole-second boundary: the number of indices `k` with `next + k ≤ elapsed`,
which is `(⌊elapsed - next⌋ + 1).toNat`. -/
theorem sampleIter_length (elapsed err : ℚ) :
    ∀ (n : ℕ) (next : ℚ) (samples : List (ℤ × ℚ)),
      (⌈elapsed - next⌉ + 1).toNat ≤ n →
      (sampleIter elapsed err n next samples).1.length
        = samples.length + (⌊elapsed - next⌋ + 1).toNat := by
  intro n
  induction n with
  | zero =>
    intro next samples h
    have hfc := Int.floor_le_ceil (elapsed - next)
    simp only [sampleIter, List.length_nil]
    omega
  | succ k ih =>
    intro next samples h
    by_cases hc : next ≤ elapsed
    · have hge : (0:ℚ) ≤ elapsed - next := by linarith
      have hcnn : 0 ≤ ⌈elapsed - next⌉ := Int.ceil_nonneg hge
      have hfnn : 0 ≤ ⌊elapsed - next⌋ := Int.floor_nonneg.mpr hge
      have hsub : elapsed - (next + 1) = elapsed - next - 1 := by ring
      have hceil : ⌈elapsed - (next + 1)⌉ = ⌈elapsed - next⌉ - 1 := by
        rw [hsub, Int.ceil_sub_one]
      have hfloor : ⌊elapsed - (next + 1)⌋ = ⌊elapsed - next⌋ - 1 := by
        rw [hsub, Int.floor_sub_one]
      simp only [sampleIter]
      rw [if_pos hc, ih (next + 1) _ (by omega)]
      simp only [List.length_append, List.length_singleton]
      omega
    · push_neg at hc
      rw [sampleIter_stop elapsed err next samples hc]
      have hneg : ¬ (0:ℤ) ≤ ⌊elapsed - next⌋ := by
        rw [Int.floor_nonneg]
        linarith
      dsimp only
      omega

/-- The PID sampling loop appends exactly one `(second, err)` sample per
whole-second boundary crossed by `elapsed`, all within the one tick. -/
theorem sampleLoop_length (elapsed err next : ℚ) (samples : List (ℤ × ℚ)) :
    (sampleLoop elapsed err next samples).1.length
      = samples.length + (⌊elapsed - next⌋ + 1).toNat :=
  sampleIter_length elapsed err _ next samples (le_refl _)

/-- The fuel bound of `sampleLoop` never truncates the loop: the loop always
returns because the `while` condition turned false. -/
theorem sampleIter_exit (elapsed err : ℚ) :
    ∀ (n : ℕ) (next : ℚ) (samples : List (ℤ × ℚ)),
      (⌈elapsed - next⌉ + 1).toNat ≤ n →
      elapsed < (sampleIter elapsed err n next samples).2 := by
  intro n
  induction n with
  | zero =>
    intro next samples h
    have hle := Int.le_ceil (elapsed - next)
    have hc : (⌈elapsed - next⌉ : ℚ) ≤ -1 := by
      have : ⌈elapsed - next⌉ ≤ -1 := by omega
      exact_mod_cast this
    simp only [sampleIter]
    linarith
  | succ k ih =>
    intro next samples h
    by_cases hc : next ≤ elapsed
    · have hge : (0:ℚ) ≤ elapsed - next := by linarith
      have hcnn : 0 ≤ ⌈elapsed - next⌉ := Int.ceil_nonneg hge
      have hceil : ⌈elapsed - (next + 1)⌉ = ⌈elapsed - next⌉ - 1 := by
        rw [show elapsed - (next + 1) = elapsed - next - 1 by ring,
            Int.ceil_sub_one]
      simp only [sampleIter]
      rw [if_pos hc]
      exact ih (next + 1) _ (by omega)
    · push_neg at hc
      rw [sampleIter_stop elapsed err next samples hc]
      exact hc

theorem sampleLoop_exit (elapsed err next : ℚ) (samples : List (ℤ × ℚ)) :
    elapsed < (sampleLoop elapsed err next samples).2 :=
  sampleIter_exit elapsed err _ next samples (le_refl _)

/-- A full deque drops its oldest element on append. -/
theorem dequeAppend_full (m : ℕ) (buf : List ℚ) (x : ℚ) (h : buf.length = m)
    (hm : 0 < m) : dequeAppend m buf x = buf.tail ++ [x] := by
  unfold dequeAppend
  simp only [List.length_append, List.length_singleton, h]
  rw [if_pos (by omega)]
  have h1 : m + 1 - m = 1 := by omega
  rw [h1, List.drop_one]
  cases buf with
  | nil =>
    simp only [List.length_nil] at h
    omega
  | cons b l => simp

theorem headI_replicate_append (n : ℕ) (hn : n ≠ 0) (x : ℚ) (l : List ℚ) :
    (List.replicate n x ++ l).headI = x := by
  cases n with
  | zero => exact absurd rfl hn
  | succ k => simp [List.replicate_succ]

theorem updateFinish_some (t elapsed err : ℚ) :
    updateFinish (some t) elapsed err = some t := rfl

theorem finishFold_some (l : List (ℚ × ℚ)) (t : ℚ) :
    List.foldl (fun tf te => updateFinish tf te.1 te.2) (some t) l = some t := by
  induction l with
  | nil => rfl
  | cons x xs ih => simpa [updateFinish_some] using ih

/-- First-passage characterisation of `t_finish`: along any trace whose
prefix stays strictly above the finish tolerance, the first tick at or below
it stamps its elapsed time, and nothing later changes it. -/
theorem finishFold_first (pre : List (ℚ × ℚ)) (el err : ℚ)
    (post : List (ℚ × ℚ)) (hpre : ∀ x ∈ pre, ¬ x.2 ≤ 1/100)
    (h : err ≤ 1/100) :
    finishFold (pre ++ (el, err) :: post) = some el := by
  unfold finishFold
  induction pre with
  | nil =>
    simp only [List.nil_append, List.foldl_cons]
    rw [show updateFinish none el err = some el from if_pos h]
    exact finishFold_some post el
  | cons x xs ih =>
    simp only [List.cons_append, List.foldl_cons]
    rw [show updateFinish none x.1 x.2 = none from if_neg (hpre x (by simp))]
    exact ih (fun y hy => hpre y (by simp [hy]))

/-- Every continuing PID tick carries the status unchanged and updates
`t_finish`, the samples and `next_sample` exactly once, via `updateFinish`
and `sampleLoop`. -/
theorem pidTick_cont_fields (N : NormModel) (e : TaskEnv) (st : PidState)
    (o : PidObs) (s : PidState) (a : Option Vec3)
    (h : pidTick N e st o = .cont s a) :
    s.status = st.status ∧
    s.tFinish = updateFinish st.tFinish o.elapsed
      (N.n2 (sub2 e.goalXY o.cubeXY)) ∧
    s.samples = (sampleLoop o.elapsed (N.n2 (sub2 e.goalXY o.cubeXY))
      st.nextSample st.samples).1 ∧
    s.nextSample = (sampleLoop o.elapsed (N.n2 (sub2 e.goalXY o.cubeXY))
      st.nextSample st.samples).2 := by
  simp only [pidTick] at h
  split at h
  · exact absurd h (by simp)
  · split at h
    · exact absurd h (by simp)
    · split at h
      · injection h with h1 h2
        subst h1
        exact ⟨rfl, rfl, rfl, rfl⟩
      · injection h with h1 h2
        subst h1
        exact ⟨rfl, rfl, rfl, rfl⟩
      · split at h
        · injection h with h1 h2
          subst h1
          exact ⟨rfl, rfl, rfl, rfl⟩
        · split at h
          · injection h with h1 h2
            subst h1
            exact ⟨rfl, rfl, rfl, rfl⟩
          · injection h with h1 h2
            subst h1
            exact ⟨rfl, rfl, rfl, rfl⟩

/-- Every continuing MPC tick carries the status unchanged and updates
`t_finish`, the samples and `next_sample` exactly once, via `updateFinish`
and the single-shot `sampleStep`. -/
theorem mpcTick_cont_fields (N : NormModel) (e : TaskEnv) (st : MpcState)
    (o : MpcObs) (s : MpcState) (a : Vec3)
    (h : mpcTick N e st o = .cont s a) :
    s.status = st.status ∧
    s.tFinish = updateFinish st.tFinish o.elapsed
      (N.n2 (sub2 e.goalXY o.cubeXY)) ∧
    s.samples = (sampleStep o.elapsed (N.n2 (sub2 e.goalXY o.cubeXY))
      st.nextSample st.samples).1 ∧
    s.nextSample = (sampleStep o.elapsed (N.n2 (sub2 e.goalXY o.cubeXY))
      st.nextSample st.samples).2 := by
  simp only [mpcTick] at h
  split at h
  · exact absurd h (by simp)
  · split at h
    · exact absurd h (by simp)
    · split at h
      · injection h with h1 h2
        subst h1
        exact ⟨rfl, rfl, rfl, rfl⟩
      · injection h with h1 h2
        subst h1
        exact ⟨rfl, rfl, rfl, rfl⟩
      · injection h with h1 h2
        subst h1
        exact ⟨rfl, rfl, rfl, rfl⟩
      · split at h
        · injection h with h1 h2
          subst h1
          exact ⟨rfl, rfl, rfl, rfl⟩
        · injection h with h1 h2
          subst h1
          exact ⟨rfl, rfl, rfl, rfl⟩
      · split at h
        · injection h with h1 h2
          subst h1
          exact ⟨rfl, rfl, rfl, rfl⟩
        · injection h with h1 h2
          subst h1
          exact ⟨rfl, rfl, rfl, rfl⟩

/- ## Evaluation helpers for concrete runs -/

theorem clip_eval_mid (x lo hi : ℚ) (h1 : lo ≤ x) (h2 : x ≤ hi) :
    clip x lo hi = x := by
  unfold clip
  rw [max_eq_left h1, min_eq_left h2]

theorem clip_eval_lo (x lo hi : ℚ) (h1 : x ≤ lo) (h2 : lo ≤ hi) :
    clip x lo hi = lo := by
  unfold clip
  rw [max_eq_right h1, min_eq_left h2]

theorem clip_eval_hi (x lo hi : ℚ) (h1 : hi ≤ x) : clip x lo hi = hi := by
  unfold clip
  rw [min_eq_right (le_trans h1 (le_max_left x lo))]

theorem taxicab_n2_nonneg (v : Vec2) : 0 ≤ taxicab.n2 v :=
  add_nonneg (abs_nonneg _) (abs_nonneg _)

theorem taxicab_n2_fst (v : Vec2) : |v.1| ≤ taxicab.n2 v :=
  le_add_of_nonneg_right (abs_nonneg _)

theorem taxicab_n2_snd (v : Vec2) : |v.2| ≤ taxicab.n2 v :=
  le_add_of_nonneg_left (abs_nonneg _)

/-- A seek-phase lateral component `dir_u_i * SEEK_VEL` is within the
per-axis speed limit, because `|dir_u_i| = |v_i| / (‖v‖ + 1e-9) ≤ 1`. -/
theorem seek_comp_le (a n : ℚ) (ha : |a| ≤ n) (hn : 0 ≤ n) :
    |a / (n + EPS) * SEEK_VEL| ≤ SPEED_XY := by
  have heps : (0:ℚ) < EPS := by norm_num [EPS]
  have hpos : 0 < n + EPS := by linarith
  have hd : |a / (n + EPS)| ≤ 1 := by
    rw [abs_div, abs_of_pos hpos, div_le_one hpos]
    linarith
  have hv : (0:ℚ) ≤ SEEK_VEL := by norm_num [SEEK_VEL]
  have hm : |a / (n + EPS) * SEEK_VEL| = |a / (n + EPS)| * SEEK_VEL := by
    rw [abs_mul, abs_of_nonneg hv]
  rw [hm]
  calc |a / (n + EPS)| * SEEK_VEL ≤ 1 * SEEK_VEL :=
        mul_le_mul_of_nonneg_right hd hv
    _ ≤ SPEED_XY := by norm_num [SEEK_VEL, SPEED_XY]

/- ## C1 -/

/-- C1: on every tick of either controller variant that issues an action,
each of the three position-delta components of that action has absolute
value at most the configured per-axis speed limit (`SPEED_XY = SPEED_Z =
0.10`), in every phase.  The hypotheses on `N` are the norm facts used:
nonnegativity and domination of each coordinate (true of the Euclidean
norm). -/
theorem C1_action_bounds (N : NormModel) (e : TaskEnv)
    (hn : ∀ v, 0 ≤ N.n2 v) (hf : ∀ v : Vec2, |v.1| ≤ N.n2 v)
    (hs : ∀ v : Vec2, |v.2| ≤ N.n2 v) :
    (∀ st o s d, pidTick N e st o = .cont s (some d) →
      |d.1| ≤ SPEED_XY ∧ |d.2.1| ≤ SPEED_XY ∧ |d.2.2| ≤ SPEED_XY) ∧
    (∀ st o s d, mpcTick N e st o = .cont s d →
      |d.1| ≤ SPEED_XY ∧ |d.2.1| ≤ SPEED_XY ∧ |d.2.2| ≤ SPEED_XY) := by
  have h0 : (0:ℚ) ≤ SPEED_XY := by norm_num [SPEED_XY]
  constructor
  · intro st o s d h
    simp only [pidTick] at h
    split at h
    · exact absurd h (by simp)
    · split at h
      · exact absurd h (by simp)
      · split at h
        · injection h with h1 h2
          injection h2 with h3
          subst h3
          exact ⟨abs_clip_le _ _ h0, abs_clip_le _ _ h0, abs_clip_le _ _ h0⟩
        · injection h with h1 h2
          injection h2 with h3
          subst h3
          exact ⟨abs_clip_le _ _ h0, abs_clip_le _ _ h0, abs_clip_le _ _ h0⟩
        · split at h
          · injection h with h1 h2
            exact absurd h2 (by simp)
          · split at h
            · injection h with h1 h2
              exact absurd h2 (by simp)
            · injection h with h1 h2
              injection h2 with h3
              subst h3
              exact ⟨abs_clip_le _ _ h0, abs_clip_le _ _ h0,
                abs_clip_le _ _ h0⟩
  · intro st o s d h
    simp only [mpcTick] at h
    split at h
    · exact absurd h (by simp)
    · split at h
      · exact absurd h (by simp)
      · split at h
        · injection h with h1 h2
          subst h2
          exact ⟨abs_clip_le _ _ h0, abs_clip_le _ _ h0, abs_clip_le _ _ h0⟩
        · injection h with h1 h2
          subst h2
          exact ⟨abs_clip_le _ _ h0, abs_clip_le _ _ h0, abs_clip_le _ _ h0⟩
        · injection h with h1 h2
          subst h2
          exact ⟨abs_clip_le _ _ h0, abs_clip_le _ _ h0, abs_clip_le _ _ h0⟩
        · split at h
          · injection h with h1 h2
            subst h2
            exact ⟨seek_comp_le _ _ (hf (sub2 e.goalXY o.cubeXY))
                (hn (sub2 e.goalXY o.cubeXY)),
              seek_comp_le _ _ (hs (sub2 e.goalXY o.cubeXY))
                (hn (sub2 e.goalXY o.cubeXY)),
              abs_clip_le _ _ h0⟩
          · injection h with h1 h2
            subst h2
            exact ⟨seek_comp_le _ _ (hf (sub2 e.goalXY o.cubeXY))
                (hn (sub2 e.goalXY o.cubeXY)),
              seek_comp_le _ _ (hs (sub2 e.goalXY o.cubeXY))
                (hn (sub2 e.goalXY o.cubeXY)),
              abs_clip_le _ _ h0⟩
        · split at h
          · injection h with h1 h2
            subst h2
            exact ⟨abs_clip_le _ _ h0, abs_clip_le _ _ h0, abs_clip_le _ _ h0⟩
          · injection h with h1 h2
            subst h2
            exact ⟨abs_clip_le _ _ h0, abs_clip_le _ _ h0, abs_clip_le _ _ h0⟩

def wEnv : TaskEnv := { goalXY := (1, 0), tableZ := 0 }

def wPidSt : PidState := { pidInit with phase := .lower }

def wPidObs : PidObs := { cubeXY := (0, 0), eePos := (0, 0, 1), elapsed := 1/2 }

def wMpcSt : MpcState := { mpcInit (0, 0) with state := .mpc }

def wMpcObs : MpcObs :=
  { cubeXY := (0, 0), ee := (0, 0, 1), cf := 1, cfAfter := 1, vCmd := (60, 0),
    elapsed := 1/2 }

/-- Concrete evaluation of one PID lower-phase tick used by the witnesses. -/
theorem wPid_eval : pidTick taxicab wEnv wPidSt wPidObs =
    PidOutcome.cont
      { phase := .lower, stallBuf := [1], nextSample := 1, samples := [],
        tFinish := none, status := .timeout }
      (some (0, 0, -1/10)) := by
  simp only [pidTick]
  rw [if_neg (by norm_num [wPidObs, MAX_TIME])]
  simp only [wPidSt, pidInit, wPidObs, wEnv, taxicab, sub2]
  rw [sampleLoop_of_lt _ _ _ _ (by norm_num)]
  norm_num [dequeAppend, STALL_CAP, TOL_FINE, updateFinish, WRIST_Z_pid,
    clip3, sub3, SPEED_XY, SPEED_Z, abs_of_nonneg, abs_of_nonpos,
    clip_eval_mid, clip_eval_lo, clip_eval_hi]

/-- Concrete evaluation of one MPC mpc-phase tick used by the witnesses. -/
theorem wMpc_eval : mpcTick taxicab wEnv wMpcSt wMpcObs =
    MpcOutcome.cont
      { state := .mpc, prevXY := (0, 0), nextSample := 1, samples := [],
        tFinish := none, status := .success }
      (1/10, 0, -1/10) := by
  simp only [mpcTick]
  simp only [wMpcSt, mpcInit, wMpcObs, wEnv, taxicab, sub2]
  norm_num [sampleStep, updateFinish, WRIST_Z_mpc, PALM_Z_OFF, CONTACT_EPS,
    DT, SPEED_XY, SPEED_Z, TOL_FINE, TIMEOUT_SEC, abs_of_nonneg,
    abs_of_nonpos, clip_eval_mid, clip_eval_lo, clip_eval_hi]

/-- C1 witness: both halves of `C1_action_bounds` applied to a concrete
tick of each variant. -/
theorem C1_witness :
    (|(0:ℚ)| ≤ SPEED_XY ∧ |(0:ℚ)| ≤ SPEED_XY ∧ |(-1/10:ℚ)| ≤ SPEED_XY) ∧
    (|(1/10:ℚ)| ≤ SPEED_XY ∧ |(0:ℚ)| ≤ SPEED_XY ∧ |(-1/10:ℚ)| ≤ SPEED_XY) :=
  ⟨(C1_action_bounds taxicab wEnv taxicab_n2_nonneg taxicab_n2_fst
      taxicab_n2_snd).1 wPidSt wPidObs _ (0, 0, -1/10) wPid_eval,
   (C1_action_bounds taxicab wEnv taxicab_n2_nonneg taxicab_n2_fst
      taxicab_n2_snd).2 wMpcSt wMpcObs _ (1/10, 0, -1/10) wMpc_eval⟩

/- ## C2 -/

def cEnv0 : TaskEnv := { goalXY := (0, 0), tableZ := 0 }

def cPidObsLate : PidObs := { cubeXY := (0, 0), eePos := (0, 0, 1), elapsed := 181 }

/-- C2 counterexample: a PID tick that starts with error magnitude `0`
(strictly below `TOL_FINE`) but elapsed time `181 s > MAX_TIME` terminates
the trial with the default status `timeout`, not `success`: the PID timeout
guard runs before the success check. -/
theorem C2_counterexample :
    taxicab.n2 (sub2 cEnv0.goalXY cPidObsLate.cubeXY) < TOL_FINE ∧
    pidTick taxicab cEnv0 pidInit cPidObsLate = PidOutcome.halt pidInit ∧
    pidInit.status = Status.timeout := by
  refine ⟨by norm_num [taxicab, sub2, cEnv0, cPidObsLate, TOL_FINE], ?_, rfl⟩
  simp only [pidTick]
  rw [if_pos (by norm_num [cPidObsLate, MAX_TIME])]

/-- C2 (amended): if the error magnitude is strictly below `TOL_FINE` at the
start of a tick, the MPC variant terminates that tick with status `success`
unconditionally (its success check is first), while the PID variant does so
only when the elapsed time has not exceeded `MAX_TIME` — its timeout guard
runs first and wins otherwise. -/
theorem C2_amended (N : NormModel) (e : TaskEnv) :
    (∀ st o, N.n2 (sub2 e.goalXY o.cubeXY) < TOL_FINE →
      mpcTick N e st o = .halt { st with status := .success }) ∧
    (∀ st o, N.n2 (sub2 e.goalXY o.cubeXY) < TOL_FINE →
      o.elapsed ≤ MAX_TIME →
      (pidTick N e st o).haltStatus = some Status.success) := by
  constructor
  · intro st o h
    simp only [mpcTick]
    rw [if_pos h]
  · intro st o h ht
    simp only [pidTick]
    rw [if_neg (not_lt.mpr ht), if_pos h]
    rfl

def cPidObsEarly : PidObs := { cubeXY := (0, 0), eePos := (0, 0, 1), elapsed := 1/2 }

def cMpcObsEarly : MpcObs :=
  { cubeXY := (0, 0), ee := (0, 0, 1), cf := 0, cfAfter := 0, vCmd := (0, 0),
    elapsed := 1/2 }

/-- C2 witness: both halves of `C2_amended` at a concrete zero-error tick. -/
theorem C2_witness :
    mpcTick taxicab cEnv0 (mpcInit (0, 0)) cMpcObsEarly =
      MpcOutcome.halt { mpcInit (0, 0) with status := .success } ∧
    (pidTick taxicab cEnv0 pidInit cPidObsEarly).haltStatus =
      some Status.success :=
  ⟨(C2_amended taxicab cEnv0).1 (mpcInit (0, 0)) cMpcObsEarly
      (by norm_num [taxicab, sub2, cEnv0, cMpcObsEarly, TOL_FINE]),
   (C2_amended taxicab cEnv0).2 pidInit cPidObsEarly
      (by norm_num [taxicab, sub2, cEnv0, cPidObsEarly, TOL_FINE])
      (by norm_num [cPidObsEarly, MAX_TIME])⟩

/- ## C3 -/

def cMpcObsLate : MpcObs :=
  { cubeXY := (0, 0), ee := (0, 0, 1), cf := 0, cfAfter := 0, vCmd := (0, 0),
    elapsed := 31 }

/-- C3 counterexample: an MPC tick whose elapsed time `31 s` exceeds
`TIMEOUT_SEC = 30 s` but whose error magnitude is below `TOL_FINE`
terminates with status `success`, not `timeout`: the MPC success check runs
before the timeout guard. -/
theorem C3_counterexample :
    TIMEOUT_SEC < cMpcObsLate.elapsed ∧
    taxicab.n2 (sub2 cEnv0.goalXY cMpcObsLate.cubeXY) < TOL_FINE ∧
    (mpcTick taxicab cEnv0 (mpcInit (0, 0)) cMpcObsLate).haltStatus =
      some Status.success := by
  refine ⟨by norm_num [cMpcObsLate, TIMEOUT_SEC],
    by norm_num [taxicab, sub2, cEnv0, cMpcObsLate, TOL_FINE], ?_⟩
  simp only [mpcTick]
  rw [if_pos (by norm_num [taxicab, sub2, cEnv0, cMpcObsLate, TOL_FINE])]
  rfl

/-- C3 (amended): when the elapsed time exceeds the budget, the PID variant
terminates that tick for every error value, with the status it carries —
which is `timeout`, since the status starts as `timeout` and no continuing
tick changes it.  The MPC variant terminates with `timeout` only when the
error magnitude at the start of the tick is at least `TOL_FINE`;
otherwise its success check, which runs first, ends the trial as
`success`. -/
theorem C3_amended (N : NormModel) (e : TaskEnv) :
    (∀ st o, MAX_TIME < o.elapsed → pidTick N e st o = .halt st) ∧
    (∀ st o s a, pidTick N e st o = .cont s a → s.status = st.status) ∧
    pidInit.status = Status.timeout ∧
    (∀ st o, ¬ N.n2 (sub2 e.goalXY o.cubeXY) < TOL_FINE →
      TIMEOUT_SEC < o.elapsed →
      mpcTick N e st o = .halt { st with status := .timeout }) := by
  refine ⟨?_, ?_, rfl, ?_⟩
  · intro st o h
    simp only [pidTick]
    rw [if_pos h]
  · intro st o s a h
    exact (pidTick_cont_fields N e st o s a h).1
  · intro st o h ht
    simp only [mpcTick]
    rw [if_neg h, if_pos ht]

def cMpcObsLateFar : MpcObs :=
  { cubeXY := (0, 0), ee := (0, 0, 1), cf := 0, cfAfter := 0, vCmd := (0, 0),
    elapsed := 31 }

def cEnvFar : TaskEnv := { goalXY := (1, 0), tableZ := 0 }

/-- C3 witness: the PID timeout halt, the status preservation on a concrete
continuing tick, and the MPC timeout halt, all via `C3_amended`. -/
theorem C3_witness :
    pidTick taxicab cEnvFar pidInit cPidObsLate = PidOutcome.halt pidInit ∧
    ({ phase := .lower, stallBuf := [1], nextSample := 1, samples := [],
       tFinish := none, status := .timeout } : PidState).status =
      wPidSt.status ∧
    mpcTick taxicab cEnvFar (mpcInit (0, 0)) cMpcObsLateFar =
      MpcOutcome.halt { mpcInit (0, 0) with status := .timeout } :=
  ⟨(C3_amended taxicab cEnvFar).1 pidInit cPidObsLate
      (by norm_num [cPidObsLate, MAX_TIME]),
   (C3_amended taxicab wEnv).2.1 wPidSt wPidObs _ _ wPid_eval,
   (C3_amended taxicab cEnvFar).2.2.2 (mpcInit (0, 0)) cMpcObsLateFar
      (by norm_num [taxicab, sub2, cEnvFar, cMpcObsLateFar, TOL_FINE])
      (by norm_num [cMpcObsLateFar, TIMEOUT_SEC])⟩

/- ## C4 -/

def exC4Env : TaskEnv := { goalXY := (999/10000, 0), tableZ := 0 }

def exC4St : PidState :=
  { phase := .push, stallBuf := List.replicate 60 (1/10), nextSample := 1,
    samples := [], tFinish := none, status := .timeout }

def exC4Obs : PidObs :=
  { cubeXY := (0, 0), eePos := (-1/20, 0, 1/1000), elapsed := 1/2 }

theorem exC4_buf :
    dequeAppend STALL_CAP exC4St.stallBuf
      (taxicab.n2 (sub2 exC4Env.goalXY exC4Obs.cubeXY)) =
    List.replicate 59 (1/10) ++ [999/10000] := by
  rw [dequeAppend_full STALL_CAP _ _ (by simp [exC4St, STALL_CAP])
    (by norm_num [STALL_CAP])]
  norm_num [exC4St, taxicab, sub2, exC4Env, exC4Obs, List.tail_replicate]

theorem exC4_eval : pidTick taxicab exC4Env exC4St exC4Obs =
    PidOutcome.cont
      { exC4St with phase := .approach,
                    stallBuf := List.replicate 59 (1/10) ++ [999/10000] }
      none := by
  simp only [pidTick]
  rw [if_neg (by norm_num [exC4Obs, MAX_TIME])]
  rw [exC4_buf]
  simp only [exC4St, exC4Obs, exC4Env, taxicab, sub2]
  norm_num [sampleLoop_of_lt, TOL_FINE, STALL_CAP, STALL_THRESH,
    REAPP_THRESH, BASE_OFFSET, EPS, updateFinish, headI_replicate_append,
    List.length_append, List.length_replicate]
  simp only [show |(999/10000 : ℚ)| = 999/10000 from by norm_num]
  norm_num

/-- C4 counterexample: a concrete PID push tick on which the stall guard
fires (buffer full, improvement `0.0001 < STALL_THRESH`): the phase does
become `approach`, but the stall buffer is NOT cleared on this
push-to-approach transition — it still holds all 60 entries. -/
theorem C4_counterexample :
    (dequeAppend STALL_CAP exC4St.stallBuf
        (taxicab.n2 (sub2 exC4Env.goalXY exC4Obs.cubeXY))).length =
      STALL_CAP ∧
    (dequeAppend STALL_CAP exC4St.stallBuf
        (taxicab.n2 (sub2 exC4Env.goalXY exC4Obs.cubeXY))).headI -
        taxicab.n2 (sub2 exC4Env.goalXY exC4Obs.cubeXY) < STALL_THRESH ∧
    (pidTick taxicab exC4Env exC4St exC4Obs).contPhase =
      some PidPhase.approach ∧
    (pidTick taxicab exC4Env exC4St exC4Obs).contStallBuf =
      some (List.replicate 59 (1/10) ++ [999/10000]) ∧
    List.replicate 59 (1/10) ++ [999/10000] ≠ ([] : List ℚ) := by
  refine ⟨?_, ?_, ?_, ?_, by simp⟩
  · rw [exC4_buf]
    simp [STALL_CAP]
  · rw [exC4_buf]
    norm_num [taxicab, sub2, exC4Env, exC4Obs, STALL_THRESH,
      headI_replicate_append, abs_of_nonneg]
  · rw [exC4_eval]
    rfl
  · rw [exC4_eval]
    rfl

/-- C4 (amended): on a PID push tick on which the (post-append) stall
buffer is full and the oldest sample exceeds the current error by less than
`STALL_THRESH`, the phase becomes `approach`, but the buffer is NOT cleared
on that transition: it keeps its 60 entries (including the sample just
appended).  The buffer is cleared only later, on the lower-to-push
transition. -/
theorem C4_amended (N : NormModel) (e : TaskEnv) :
    (∀ st o, st.phase = .push →
      ¬ N.n2 (sub2 e.goalXY o.cubeXY) < TOL_FINE →
      o.elapsed ≤ MAX_TIME →
      (dequeAppend STALL_CAP st.stallBuf
          (N.n2 (sub2 e.goalXY o.cubeXY))).length = STALL_CAP →
      (dequeAppend STALL_CAP st.stallBuf
          (N.n2 (sub2 e.goalXY o.cubeXY))).headI -
          N.n2 (sub2 e.goalXY o.cubeXY) < STALL_THRESH →
      (pidTick N e st o).contPhase = some PidPhase.approach ∧
      (pidTick N e st o).contStallBuf =
        some (dequeAppend STALL_CAP st.stallBuf
          (N.n2 (sub2 e.goalXY o.cubeXY))) ∧
      (pidTick N e st o).contAct = some none) ∧
    (∀ st o s a, st.phase = .lower →
      ¬ N.n2 (sub2 e.goalXY o.cubeXY) < TOL_FINE →
      o.elapsed ≤ MAX_TIME →
      |o.eePos.2.2 - (WRIST_Z_pid e + 1/1000)| < 8/10000 →
      pidTick N e st o = .cont s a → s.stallBuf = [] ∧ s.phase = .push) := by
  constructor
  · intro st o hphase herr ht hlen hst
    simp only [pidTick, if_neg (not_lt.mpr ht), if_neg herr, hphase]
    split
    · exact ⟨rfl, rfl, rfl⟩
    · split
      · exact ⟨rfl, rfl, rfl⟩
      · rename_i hcond
        exact absurd ⟨hlen, hst⟩ hcond
  · intro st o s a hphase herr ht hz h
    simp only [pidTick, if_neg (not_lt.mpr ht), if_neg herr, hphase,
      if_pos hz] at h
    injection h with h1 h2
    subst h1
    exact ⟨rfl, rfl⟩

def exC4LowObs : PidObs :=
  { cubeXY := (0, 0), eePos := (0, 0, 2/1000), elapsed := 1/2 }

def exC4LowSt : PidState := { pidInit with phase := .lower, stallBuf := [1/10] }

theorem exC4Low_eval : pidTick taxicab cEnvFar exC4LowSt exC4LowObs =
    PidOutcome.cont
      { exC4LowSt with phase := .push, stallBuf := [] }
      (some (0, 0, 0)) := by
  simp only [pidTick]
  rw [if_neg (by norm_num [exC4LowObs, MAX_TIME])]
  simp only [exC4LowSt, pidInit, exC4LowObs, cEnvFar, taxicab, sub2]
  rw [sampleLoop_of_lt _ _ _ _ (by norm_num)]
  norm_num [dequeAppend, STALL_CAP, TOL_FINE, updateFinish, WRIST_Z_pid,
    clip3, sub3, SPEED_XY, SPEED_Z, abs_of_nonneg, abs_of_nonpos,
    clip_eval_mid, clip_eval_lo, clip_eval_hi]

/-- C4 witness: both halves of `C4_amended` at concrete ticks — the stall
tick of the counterexample input, and a lower-to-push tick that clears the
buffer. -/
theorem C4_witness :
    ((pidTick taxicab exC4Env exC4St exC4Obs).contPhase =
        some PidPhase.approach ∧
      (pidTick taxicab exC4Env exC4St exC4Obs).contStallBuf =
        some (dequeAppend STALL_CAP exC4St.stallBuf
          (taxicab.n2 (sub2 exC4Env.goalXY exC4Obs.cubeXY))) ∧
      (pidTick taxicab exC4Env exC4St exC4Obs).contAct = some none) ∧
    (({ exC4LowSt with phase := .push, stallBuf := [] } : PidState).stallBuf
        = [] ∧
      ({ exC4LowSt with phase := .push, stallBuf := [] } : PidState).phase
        = .push) :=
  ⟨(C4_amended taxicab exC4Env).1 exC4St exC4Obs rfl
      (by norm_num [taxicab, sub2, exC4Env, exC4Obs, TOL_FINE,
        abs_of_nonneg])
      (by norm_num [exC4Obs, MAX_TIME])
      (by rw [exC4_buf]; simp [STALL_CAP])
      (by rw [exC4_buf]
          norm_num [taxicab, sub2, exC4Env, exC4Obs, STALL_THRESH,
            headI_replicate_append, abs_of_nonneg]),
   (C4_amended taxicab cEnvFar).2 exC4LowSt exC4LowObs _ _ rfl
      (by norm_num [taxicab, sub2, cEnvFar, exC4LowObs, TOL_FINE])
      (by norm_num [exC4LowObs, MAX_TIME])
      (by norm_num [exC4LowObs, WRIST_Z_pid, cEnvFar])
      exC4Low_eval⟩

/- ## C5 -/

theorem sampleStep_length_le (elapsed err next : ℚ)
    (samples : List (ℤ × ℚ)) :
    (sampleStep elapsed err next samples).1.length ≤ samples.length + 1 := by
  unfold sampleStep
  split
  · simp
  · simp

def exC5Obs : MpcObs :=
  { cubeXY := (0, 0), ee := (0, 0, 1), cf := 0, cfAfter := 0, vCmd := (0, 0),
    elapsed := 17/5 }

/-- C5 counterexample: a single MPC tick at elapsed time `3.4 s` with
`next_sample = 1` has crossed the three whole-second boundaries `1, 2, 3`,
but appends only ONE sample, `(1, err)` — the MPC sampling step is an `if`,
not a `while`, so it cannot fire more than once per tick. -/
theorem C5_counterexample :
    (mpcInit (0, 0)).nextSample = 1 ∧ exC5Obs.elapsed = 17/5 ∧
    (mpcTick taxicab cEnvFar (mpcInit (0, 0)) exC5Obs).contSamples =
      some [(1, 1)] := by
  refine ⟨rfl, rfl, ?_⟩
  simp only [mpcTick]
  rw [if_neg (by norm_num [taxicab, sub2, cEnvFar, exC5Obs, TOL_FINE,
    abs_of_nonneg])]
  rw [if_neg (by norm_num [exC5Obs, TIMEOUT_SEC])]
  simp only [mpcInit]
  norm_num [MpcOutcome.contSamples, sampleStep, pyInt, exC5Obs, cEnvFar,
    taxicab, sub2, Int.floor_one, abs_of_nonneg]

/-- C5 (amended): the PID variant's sampling step loops while the elapsed
time exceeds the next boundary, appending exactly one `(second, err)` sample
per crossed boundary within the same tick (and exiting only because the
condition turned false); every continuing PID tick updates its samples with
exactly that loop.  The MPC variant's sampling step is a single `if`: a
continuing MPC tick appends at most one sample, however many boundaries the
tick crossed. -/
theorem C5_amended (N : NormModel) (e : TaskEnv) :
    (∀ (elapsed err next : ℚ) (samples : List (ℤ × ℚ)),
      (sampleLoop elapsed err next samples).1.length =
        samples.length + (⌊elapsed - next⌋ + 1).toNat ∧
      elapsed < (sampleLoop elapsed err next samples).2) ∧
    (∀ st o s a, pidTick N e st o = .cont s a →
      s.samples = (sampleLoop o.elapsed (N.n2 (sub2 e.goalXY o.cubeXY))
        st.nextSample st.samples).1) ∧
    (∀ st o s a, mpcTick N e st o = .cont s a →
      s.samples.length ≤ st.samples.length + 1) := by
  refine ⟨?_, ?_, ?_⟩
  · intro elapsed err next samples
    exact ⟨sampleLoop_length elapsed err next samples,
      sampleLoop_exit elapsed err next samples⟩
  · intro st o s a h
    exact (pidTick_cont_fields N e st o s a h).2.2.1
  · intro st o s a h
    rw [(mpcTick_cont_fields N e st o s a h).2.2.1]
    exact sampleStep_length_le _ _ _ _

/-- C5 witness: the PID sampling loop at elapsed `3.4 s` from boundary `1`
records exactly 3 samples in one pass and exits by its condition; a
concrete continuing tick of each variant instantiates the per-tick
conjuncts. -/
theorem C5_witness :
    (sampleLoop (17/5) (1/2) 1 []).1.length = 3 ∧
    (17/5 : ℚ) < (sampleLoop (17/5) (1/2) 1 []).2 ∧
    (({ phase := .lower, stallBuf := [1], nextSample := 1, samples := [],
        tFinish := none, status := .timeout } : PidState)).samples =
      (sampleLoop wPidObs.elapsed
        (taxicab.n2 (sub2 wEnv.goalXY wPidObs.cubeXY)) wPidSt.nextSample
        wPidSt.samples).1 ∧
    (({ state := .mpc, prevXY := (0, 0), nextSample := 1, samples := [],
        tFinish := none, status := .success } : MpcState)).samples.length ≤
      wMpcSt.samples.length + 1 := by
  refine ⟨?_, ((C5_amended taxicab cEnvFar).1 (17/5) (1/2) 1 []).2,
    (C5_amended taxicab wEnv).2.1 wPidSt wPidObs _ _ wPid_eval,
    (C5_amended taxicab wEnv).2.2 wMpcSt wMpcObs _ _ wMpc_eval⟩
  rw [((C5_amended taxicab cEnvFar).1 (17/5) (1/2) 1 []).1]
  have hf : ⌊(17/5 : ℚ) - 1⌋ = 2 := by
    rw [show (17/5 : ℚ) - 1 = 12/5 by norm_num, Int.floor_eq_iff]
    constructor <;> norm_num
  rw [hf]
  rfl

/- ## C6 -/

/-- C6: the recorded finish time is the elapsed time of the first tick whose
error magnitude is at or below the `0.01 m` finish tolerance: a set value is
never overwritten (`updateFinish` keeps `some t`), a trace whose prefix
stays above the tolerance stamps the first passage and keeps it through any
later rise, the CSV finish field ignores the terminal status — for a
nonzero recorded time it is emitted unchanged also under status `timeout` —
and every continuing tick of either variant performs exactly the
`updateFinish` step. -/
theorem C6_finish_time (N : NormModel) (e : TaskEnv) :
    (∀ (t elapsed err : ℚ), updateFinish (some t) elapsed err = some t) ∧
    (∀ (pre : List (ℚ × ℚ)) (el err : ℚ) (post : List (ℚ × ℚ)),
      (∀ x ∈ pre, ¬ x.2 ≤ 1/100) → err ≤ 1/100 →
      finishFold (pre ++ (el, err) :: post) = some el) ∧
    (∀ (total : ℚ) (status : Status) (samples : List (ℤ × ℚ)) (t : ℚ),
      t ≠ 0 →
      (pidLine total (some t) status samples).finishField = some t ∧
      (mpcLine total (some t) status samples).finishField = some t) ∧
    (∀ st o s a, pidTick N e st o = .cont s a →
      s.tFinish = updateFinish st.tFinish o.elapsed
        (N.n2 (sub2 e.goalXY o.cubeXY))) ∧
    (∀ st o s a, mpcTick N e st o = .cont s a →
      s.tFinish = updateFinish st.tFinish o.elapsed
        (N.n2 (sub2 e.goalXY o.cubeXY))) := by
  refine ⟨updateFinish_some, finishFold_first, ?_, ?_, ?_⟩
  · intro total status samples t ht
    constructor <;> simp [pidLine, mpcLine, csvFinishField, ht]
  · intro st o s a h
    exact (pidTick_cont_fields N e st o s a h).2.1
  · intro st o s a h
    exact (mpcTick_cont_fields N e st o s a h).2.1

/-- C6 witness: the spec's scenario — error dips to `0.008` at `t = 5 s`
after staying at `0.05`, rises again, the trial times out — still emits
finish time `5`; plus the per-tick conjuncts at concrete ticks. -/
theorem C6_witness :
    finishFold ([(1, 5/100)] ++ (5, 8/1000) :: [(9, 5/100)]) = some 5 ∧
    (pidLine 30 (some 5) Status.timeout []).finishField = some 5 ∧
    (mpcLine 30 (some 5) Status.timeout []).finishField = some 5 ∧
    (({ phase := .lower, stallBuf := [1], nextSample := 1, samples := [],
        tFinish := none, status := .timeout } : PidState)).tFinish =
      updateFinish wPidSt.tFinish wPidObs.elapsed
        (taxicab.n2 (sub2 wEnv.goalXY wPidObs.cubeXY)) ∧
    (({ state := .mpc, prevXY := (0, 0), nextSample := 1, samples := [],
        tFinish := none, status := .success } : MpcState)).tFinish =
      updateFinish wMpcSt.tFinish wMpcObs.elapsed
        (taxicab.n2 (sub2 wEnv.goalXY wMpcObs.cubeXY)) :=
  ⟨(C6_finish_time taxicab wEnv).2.1 [(1, 5/100)] 5 (8/1000) [(9, 5/100)]
      (by intro x hx
          simp only [List.mem_singleton] at hx
          rw [hx]
          norm_num)
      (by norm_num),
   ((C6_finish_time taxicab wEnv).2.2.1 30 .timeout [] 5 (by norm_num)).1,
   ((C6_finish_time taxicab wEnv).2.2.1 30 .timeout [] 5 (by norm_num)).2,
   (C6_finish_time taxicab wEnv).2.2.2.1 wPidSt wPidObs _ _ wPid_eval,
   (C6_finish_time taxicab wEnv).2.2.2.2 wMpcSt wMpcObs _ _ wMpc_eval⟩

/- ## C9 -/

/-- C9: the success re-test inside the MPC variant's mpc branch is
unreachable: whenever the mpc branch executes (the top-of-loop success check
and the timeout guard both fell through, so the `err` bound at the top of
the loop is at least `TOL_FINE`), the tick continues — the in-branch
`if err < TOL_FINE: break` never fires, because it re-tests the very same
`err` value. -/
theorem C9_mpc_inner_success_unreachable (N : NormModel) (e : TaskEnv) :
    ∀ st o, st.state = .mpc →
      ¬ N.n2 (sub2 e.goalXY o.cubeXY) < TOL_FINE →
      o.elapsed ≤ TIMEOUT_SEC →
      ∃ s a, mpcTick N e st o = .cont s a := by
  intro st o hphase herr ht
  simp only [mpcTick, if_neg herr, if_neg (not_lt.mpr ht), hphase]
  split
  · exact ⟨_, _, rfl⟩
  · exact ⟨_, _, rfl⟩

/-- C9 witness: a concrete mpc-phase tick with error `1 ≥ TOL_FINE`
continues rather than halting. -/
theorem C9_witness :
    ∃ s a, mpcTick taxicab wEnv wMpcSt wMpcObs = MpcOutcome.cont s a :=
  C9_mpc_inner_success_unreachable taxicab wEnv wMpcSt wMpcObs rfl
    (by norm_num [taxicab, sub2, wEnv, wMpcObs, TOL_FINE, abs_of_nonneg])
    (by norm_num [wMpcObs, TIMEOUT_SEC])

/- ## C10 -/

/-- C10: the emitted finish-time field reads `NaN` (encoded `none`) exactly
when the recorded `t_finish` is Python-falsy — either never set (`None`) or
set to exactly `0.0`; in the latter case a genuine first passage at elapsed
time zero is reported as `NaN`.  Both variants build the field with the
same truthiness test. -/
theorem C10_nan_iff_falsy :
    ∀ (total : ℚ) (status : Status) (samples : List (ℤ × ℚ))
      (tf : Option ℚ),
      ((pidLine total tf status samples).finishField = none ↔
        tf = none ∨ tf = some 0) ∧
      ((mpcLine total tf status samples).finishField = none ↔
        tf = none ∨ tf = some 0) := by
  intro total status samples tf
  constructor <;>
  · cases tf with
    | none => simp [pidLine, mpcLine, csvFinishField]
    | some t =>
      by_cases ht : t = 0 <;> simp [pidLine, mpcLine, csvFinishField, ht]

/- ## C7 -/

def exC7St : MpcState := { mpcInit (0, 0) with state := .seek_lift }

def exC7Obs : MpcObs :=
  { cubeXY := (0, 0), ee := (1, 0, 1), cf := 1, cfAfter := 1, vCmd := (0, 0),
    elapsed := 1/2 }

/-- C7 counterexample: a seek_lift tick whose contact readings (both the
top-of-tick one and the post-step one) are `1`, far above the `1e-4`
threshold, remains in seek_lift at the end of the tick: the seek_lift exit
condition is purely pose-based and ignores contact. -/
theorem C7_counterexample :
    CONTACT_EPS < exC7Obs.cf ∧ CONTACT_EPS < exC7Obs.cfAfter ∧
    (mpcTick taxicab cEnvFar exC7St exC7Obs).contPhase =
      some MpcPhase.seek_lift := by
  refine ⟨by norm_num [exC7Obs, CONTACT_EPS],
    by norm_num [exC7Obs, CONTACT_EPS], ?_⟩
  simp only [mpcTick]
  rw [if_neg (by norm_num [taxicab, sub2, cEnvFar, exC7Obs, TOL_FINE,
    abs_of_nonneg])]
  rw [if_neg (by norm_num [exC7Obs, TIMEOUT_SEC])]
  simp only [exC7St, mpcInit]
  norm_num [MpcOutcome.contPhase, back_pose, sub3, taxicab, sub2, cEnvFar,
    exC7Obs, BASE_OFF, EPS, LIFT_H, abs_of_nonneg, abs_of_nonpos]

/-- C7 (amended): in the MPC variant, a seek tick whose POST-STEP contact
reading exceeds the `1e-4` threshold transitions to mpc on that same tick;
but the seek_lift phase exits (to seek, never directly to mpc) exactly when
the end-effector is within `0.004` of the lift pose, irrespective of any
contact reading — an established contact can leave the machine in
seek_lift. -/
theorem C7_amended (N : NormModel) (e : TaskEnv) :
    (∀ st o, st.state = .seek →
      ¬ N.n2 (sub2 e.goalXY o.cubeXY) < TOL_FINE →
      o.elapsed ≤ TIMEOUT_SEC → CONTACT_EPS < o.cfAfter →
      (mpcTick N e st o).contPhase = some MpcPhase.mpc) ∧
    (∀ st o, st.state = .seek_lift →
      ¬ N.n2 (sub2 e.goalXY o.cubeXY) < TOL_FINE →
      o.elapsed ≤ TIMEOUT_SEC →
      (mpcTick N e st o).contPhase =
        some (if N.n3 (sub3 (back_pose N e o.cubeXY LIFT_H) o.ee) < 4/1000
          then MpcPhase.seek else MpcPhase.seek_lift)) := by
  constructor
  · intro st o hphase herr ht hc
    simp only [mpcTick, if_neg herr, if_neg (not_lt.mpr ht), hphase,
      if_pos hc]
    rfl
  · intro st o hphase herr ht
    simp only [mpcTick, if_neg herr, if_neg (not_lt.mpr ht), hphase]
    rfl

def exC7SeekSt : MpcState := { mpcInit (0, 0) with state := .seek }

/-- C7 witness: both halves of `C7_amended` at concrete ticks — a seek tick
with post-step contact `1` enters mpc; the counterexample's seek_lift tick
follows its pose-based rule. -/
theorem C7_witness :
    (mpcTick taxicab cEnvFar exC7SeekSt exC7Obs).contPhase =
      some MpcPhase.mpc ∧
    (mpcTick taxicab cEnvFar exC7St exC7Obs).contPhase =
      some (if taxicab.n3 (sub3 (back_pose taxicab cEnvFar exC7Obs.cubeXY
        LIFT_H) exC7Obs.ee) < 4/1000
        then MpcPhase.seek else MpcPhase.seek_lift) :=
  ⟨(C7_amended taxicab cEnvFar).1 exC7SeekSt exC7Obs rfl
      (by norm_num [taxicab, sub2, cEnvFar, exC7Obs, TOL_FINE,
        abs_of_nonneg])
      (by norm_num [exC7Obs, TIMEOUT_SEC])
      (by norm_num [exC7Obs, CONTACT_EPS]),
   (C7_amended taxicab cEnvFar).2 exC7St exC7Obs rfl
      (by norm_num [taxicab, sub2, cEnvFar, exC7Obs, TOL_FINE,
        abs_of_nonneg])
      (by norm_num [exC7Obs, TIMEOUT_SEC])⟩

/- ## C8 -/

def exC8Env : TaskEnv := { goalXY := (1/10, 0), tableZ := 0 }

def exC8Tgt : Vec3 := pidApproachTgt taxicab exC8Env (0, 0)

def exC8Obs : PidObs :=
  { cubeXY := (0, 0), eePos := (exC8Tgt.1 + 9/2000, exC8Tgt.2.1, exC8Tgt.2.2),
    elapsed := 1/2 }

/-- C8 counterexample: a PID approach tick whose end-effector sits exactly
`0.0045 m` from the standoff target (axis-aligned, so the taxicab and
Euclidean distances agree) transitions to lower, although `0.0045` is NOT
within the claimed literal `0.004` tolerance: the PID approach branch uses
`0.005`. -/
theorem C8_counterexample :
    taxicab.n3 (sub3 exC8Obs.eePos (pidApproachTgt taxicab exC8Env (0, 0)))
      = 9/2000 ∧
    ¬ (9/2000 : ℚ) < 4/1000 ∧
    (pidTick taxicab exC8Env pidInit exC8Obs).contPhase =
      some PidPhase.lower := by
  refine ⟨?_, by norm_num, ?_⟩
  · norm_num [sub3, exC8Obs, exC8Tgt, taxicab, Prod.fst_zero, Prod.snd_zero,
      abs_of_nonneg]
  · simp only [pidTick]
    rw [if_neg (by norm_num [exC8Obs, MAX_TIME])]
    rw [if_neg (by norm_num [taxicab, sub2, exC8Env, exC8Obs, TOL_FINE,
      abs_of_nonneg])]
    simp only [pidInit]
    norm_num [PidOutcome.contPhase, pidApproachTgt, sub3, sub2, taxicab,
      exC8Obs, exC8Env, exC8Tgt, BASE_OFFSET, EPS, APPROACH_HEIGHT,
      abs_of_nonneg, abs_of_nonpos]

/-- C8 (amended): a continuing approach tick transitions to lower exactly
when the end-effector is within the variant's own literal tolerance of the
standoff target — `0.005` for the PID variant, `0.004` for the MPC variant
— and in no other circumstance. -/
theorem C8_amended (N : NormModel) (e : TaskEnv) :
    (∀ st o, st.phase = .approach →
      ¬ N.n2 (sub2 e.goalXY o.cubeXY) < TOL_FINE → o.elapsed ≤ MAX_TIME →
      (pidTick N e st o).contPhase =
        some (if N.n3 (sub3 o.eePos (pidApproachTgt N e o.cubeXY)) < 5/1000
          then PidPhase.lower else PidPhase.approach)) ∧
    (∀ st o, st.state = .approach →
      ¬ N.n2 (sub2 e.goalXY o.cubeXY) < TOL_FINE →
      o.elapsed ≤ TIMEOUT_SEC →
      (mpcTick N e st o).contPhase =
        some (if N.n3 (sub3 (back_pose N e o.cubeXY APPROACH_H) o.ee)
            < 4/1000
          then MpcPhase.lower else MpcPhase.approach)) := by
  constructor
  · intro st o hphase herr ht
    simp only [pidTick, if_neg (not_lt.mpr ht), if_neg herr, hphase]
    rfl
  · intro st o hphase herr ht
    simp only [mpcTick, if_neg herr, if_neg (not_lt.mpr ht), hphase]
    rfl

/-- C8 witness: both halves of `C8_amended` at concrete approach ticks. -/
theorem C8_witness :
    (pidTick taxicab exC8Env pidInit exC8Obs).contPhase =
      some (if taxicab.n3 (sub3 exC8Obs.eePos
          (pidApproachTgt taxicab exC8Env exC8Obs.cubeXY)) < 5/1000
        then PidPhase.lower else PidPhase.approach) ∧
    (mpcTick taxicab cEnvFar (mpcInit (0, 0)) cMpcObsEarly).contPhase =
      some (if taxicab.n3 (sub3 (back_pose taxicab cEnvFar
          cMpcObsEarly.cubeXY APPROACH_H) cMpcObsEarly.ee) < 4/1000
        then MpcPhase.lower else MpcPhase.approach) :=
  ⟨(C8_amended taxicab exC8Env).1 pidInit exC8Obs rfl
      (by norm_num [taxicab, sub2, exC8Env, exC8Obs, TOL_FINE,
        abs_of_nonneg])
      (by norm_num [exC8Obs, MAX_TIME]),
   (C8_amended taxicab cEnvFar).2 (mpcInit (0, 0)) cMpcObsEarly rfl
      (by norm_num [taxicab, sub2, cEnvFar, cMpcObsEarly, TOL_FINE,
        abs_of_nonneg])
      (by norm_num [cMpcObsEarly, TIMEOUT_SEC])⟩

end BlockPush
